import Mathlib

/-!
Verification of the mini text-adventure / combat game (`game.py`).

The development shallowly embeds the game's data model and the two logic
components — the condition evaluator / action-catalog filter and the
turn-based combat loop — as executable Lean definitions translated
directly from the Python source, and proves the specified properties
about them.
-/

/-- Embedding of the Python (JSON-like) values that appear as condition
values and mission values in the content documents: `None`, booleans,
integers and strings. -/
inductive PyVal where
  | pNone : PyVal
  | pBool : Bool → PyVal
  | pInt : Int → PyVal
  | pStr : String → PyVal
deriving DecidableEq, Repr

/-- Numeric view used by Python `==`: booleans compare equal to the
integers 0/1 (`True == 1` holds in Python); other values are not numeric. -/
def PyVal.toIntQ : PyVal → Option Int
  | PyVal.pBool b => some (if b then 1 else 0)
  | PyVal.pInt n => some n
  | _ => none

/-- Python equality (`==`) on the embedded values: numeric values compare
by value (with bool/int coercion), everything else by structural equality. -/
def pyEq (a b : PyVal) : Bool :=
  match PyVal.toIntQ a, PyVal.toIntQ b with
  | some x, some y => x = y
  | _, _ => a = b

/-- Python `dict.get(k, d)` on an insertion-ordered association list. -/
def pyGetD (m : List (String × PyVal)) (k : String) (d : PyVal) : PyVal :=
  match m.find? (fun kv => kv.1 == k) with
  | some kv => kv.2
  | none => d

/-- Python `m[k] = v` on an insertion-ordered association list: updates the
value in place if the key exists, otherwise appends the new binding. -/
def pySet (m : List (String × PyVal)) (k : String) (v : PyVal) : List (String × PyVal) :=
  if m.any fun kv => kv.1 == k then
    m.map fun kv => if kv.1 == k then (k, v) else kv
  else m ++ [(k, v)]

/-- `class Item` of `game.py`: a piece of equipment with a name and two
bonuses. -/
structure Item where
  name : String
  attack_bonus : Int
  defense_bonus : Int
deriving DecidableEq, Repr

/-- `class Player` of `game.py`: the live (post-`__init__`) player state.
`weapon` mirrors `self.weapon`; `missions` mirrors the missions dict. -/
structure Player where
  name : String
  hp : Int
  base_attack : Int
  defense : Int
  inventory : List Item
  weapon : Option Item
  missions : List (String × PyVal)
deriving DecidableEq, Repr

/-- `class Enemy` of `game.py`. -/
structure Enemy where
  name : String
  hp : Int
  attack : Int
  defense : Int
  description : String
deriving DecidableEq, Repr

/-- The `Player.attack` property: `base_attack` plus the equipped weapon's
`attack_bonus` (0 when no weapon is equipped). -/
def Player.attack (p : Player) : Int :=
  p.base_attack + (match p.weapon with | some w => w.attack_bonus | none => 0)

/-- A sub-option of an action category (`options` entries in `actions.json`):
a display name plus eligibility conditions. -/
structure ActOption where
  name : String
  conditions : List (String × PyVal)
deriving DecidableEq, Repr

/-- An action category from the actions catalog: key, display name,
eligibility conditions and sub-options (missing dict entries are embedded
as the empty list, matching the `.get(..., default)` reads in the source). -/
structure Category where
  key : String
  name : String
  conditions : List (String × PyVal)
  options : List ActOption
deriving DecidableEq, Repr

/-- `check_conditions(player, conditions)` of `game.py`, translated
clause-for-clause: the dict is walked in order and the first failing
entry returns `False`; an unrecognized key returns `False`. -/
def check_conditions (p : Player) : List (String × PyVal) → Bool
  | [] => true
  | (k, v) :: rest =>
    if k = "weapon" then
      if v = PyVal.pBool true ∧ p.weapon = none then false
      else
        match v with
        | PyVal.pStr s =>
          match p.weapon with
          | none => false
          | some w => if w.name ≠ s then false else check_conditions p rest
        | _ => check_conditions p rest
    else if k = "has_item" then
      if p.inventory.any fun it => pyEq (PyVal.pStr it.name) v then check_conditions p rest
      else false
    else if k = "mission" then
      if pyEq (pyGetD p.missions "current" PyVal.pNone) v then check_conditions p rest
      else false
    else
      false

/-- What it means for a single condition entry to pass, written from the
specification's description of the evaluator: `weapon: true` requires an
equipped weapon; `weapon: s` requires the equipped weapon to be named `s`
(a `weapon` entry with any other value imposes no requirement, see C10);
`has_item` requires an inventory item whose name equals the value;
`mission` compares `missions["current"]` with the value; any other key is
unsatisfiable. -/
def entryPassSpec (p : Player) (k : String) (v : PyVal) : Prop :=
  if k = "weapon" then
    (v = PyVal.pBool true → p.weapon.isSome = true) ∧
    (∀ s, v = PyVal.pStr s → ∃ w, p.weapon = some w ∧ w.name = s)
  else if k = "has_item" then
    ∃ it, it ∈ p.inventory ∧ pyEq (PyVal.pStr it.name) v = true
  else if k = "mission" then
    pyEq (pyGetD p.missions "current" PyVal.pNone) v = true
  else False

lemma check_conditions_cons (p : Player) (k : String) (v : PyVal)
    (rest : List (String × PyVal)) :
    check_conditions p ((k, v) :: rest) = true ↔
      (entryPassSpec p k v ∧ check_conditions p rest = true) := by
  by_cases hk : k = "weapon"
  · subst hk
    cases v with
    | pNone => simp [check_conditions, entryPassSpec]
    | pBool b =>
      cases b with
      | false => cases hw : p.weapon <;> simp [check_conditions, entryPassSpec, hw]
      | true => cases hw : p.weapon <;> simp [check_conditions, entryPassSpec, hw]
    | pInt n => simp [check_conditions, entryPassSpec]
    | pStr s =>
      cases hw : p.weapon with
      | none => simp [check_conditions, entryPassSpec, hw]
      | some w =>
        by_cases hn : w.name = s <;> simp [check_conditions, entryPassSpec, hw, hn]
  · by_cases hi : k = "has_item"
    · subst hi
      simp [check_conditions, entryPassSpec, List.any_eq_true]
    · by_cases hm : k = "mission"
      · subst hm
        by_cases hq : pyEq (pyGetD p.missions "current" PyVal.pNone) v = true <;>
          simp [check_conditions, entryPassSpec, hq, hk]
      · simp [check_conditions, entryPassSpec, hk, hi, hm]

/-- Claim C2: for every player and condition mapping, `check_conditions`
returns `true` iff every entry passes, where a `weapon: true` entry
requires an equipped weapon, a `weapon: s` entry requires the equipped
weapon to exist and be named `s`, `has_item: s` requires an inventory item
named `s`, `mission: v` requires `missions["current"] == v`, any entry
with an unrecognized key is unsatisfiable (fail-closed), and the empty
mapping passes. -/
theorem claim_C2 (p : Player) (conds : List (String × PyVal)) :
    check_conditions p conds = true ↔ ∀ kv ∈ conds, entryPassSpec p kv.1 kv.2 := by
  induction conds with
  | nil => simp [check_conditions]
  | cons kv rest ih =>
    obtain ⟨k, v⟩ := kv
    rw [check_conditions_cons]
    simp [ih]

/-- Claim C10: a `weapon` condition entry whose value is neither `True`
nor a string never causes failure — `check_conditions` treats it exactly
as if the entry were absent, even when the player has no weapon. -/
theorem claim_C10 (p : Player) (v : PyVal) (rest : List (String × PyVal))
    (hb : v ≠ PyVal.pBool true) (hs : ∀ s, v ≠ PyVal.pStr s) :
    check_conditions p (("weapon", v) :: rest) = check_conditions p rest := by
  cases v with
  | pNone => simp [check_conditions]
  | pBool b =>
    cases b with
    | false => simp [check_conditions]
    | true => exact absurd rfl hb
  | pInt n => simp [check_conditions]
  | pStr s => exact absurd rfl (hs s)

/-- Witness for C10: a weaponless player with a `weapon: false` entry
still passes the (otherwise empty) condition set. -/
theorem claim_C10_witness :
    check_conditions ⟨"A", 100, 10, 5, [], none, []⟩
        [("weapon", PyVal.pBool false)] =
      check_conditions ⟨"A", 100, 10, 5, [], none, []⟩ [] ∧
    check_conditions ⟨"A", 100, 10, 5, [], none, []⟩
        [("weapon", PyVal.pBool false)] = true :=
  ⟨claim_C10 ⟨"A", 100, 10, 5, [], none, []⟩ (PyVal.pBool false) []
      (by decide) (by intro s h; cases h),
   by decide⟩

/-- One iteration of the loop body of `get_available_actions`: skip the
category if its conditions fail, filter its options, and append the
filtered copy when some option survived or the category declared no
options (`if opts or not cat.get("options")`). -/
def gaaStep (p : Player) (acc : List Category) (cat : Category) : List Category :=
  if ¬ check_conditions p cat.conditions then acc
  else
    let opts := cat.options.filter fun o => check_conditions p o.conditions
    if !opts.isEmpty || cat.options.isEmpty then acc ++ [{cat with options := opts}]
    else acc

/-- `get_available_actions(player)` of `game.py`: the catalog loop,
as a left fold of `gaaStep` starting from the empty accumulator. -/
def get_available_actions (catalog : List Category) (p : Player) : List Category :=
  catalog.foldl (gaaStep p) []

/-- The action-catalog filter as the specification words it: keep the
categories whose own conditions pass, in catalog order; replace options by
the passing subsequence; drop a category that declared options but whose
every option failed. -/
def availableActions_spec (catalog : List Category) (p : Player) : List Category :=
  (catalog.filter fun c => check_conditions p c.conditions).filterMap fun c =>
    let opts := c.options.filter fun o => check_conditions p o.conditions
    if c.options ≠ [] ∧ opts = [] then none
    else some {c with options := opts}

lemma gaaStep_append (p : Player) (acc : List Category) (cat : Category) :
    gaaStep p acc cat = acc ++ gaaStep p [] cat := by
  simp only [gaaStep]
  split_ifs <;> simp

lemma gaa_foldl_append (p : Player) :
    ∀ (l : List Category) (acc : List Category),
      l.foldl (gaaStep p) acc = acc ++ l.foldl (gaaStep p) [] := by
  intro l
  induction l with
  | nil => simp
  | cons c cs ih =>
    intro acc
    rw [List.foldl_cons, List.foldl_cons, ih (gaaStep p acc c),
      ih (gaaStep p [] c), gaaStep_append, List.append_assoc]

/-- Claim C3: `get_available_actions` returns exactly the catalog
categories whose own conditions pass, in catalog order, each with its
options replaced by the passing subsequence; a category with a non-empty
options list all of whose options fail is omitted, and a category with no
options is included whenever its own conditions pass. -/
theorem claim_C3 (catalog : List Category) (p : Player) :
    get_available_actions catalog p = availableActions_spec catalog p := by
  induction catalog with
  | nil => simp [get_available_actions, availableActions_spec]
  | cons c cs ih =>
    unfold get_available_actions at ih ⊢
    rw [List.foldl_cons, gaa_foldl_append, ih]
    unfold availableActions_spec
    by_cases hc : check_conditions p c.conditions
    · rw [List.filter_cons_of_pos (by simpa using hc), List.filterMap_cons]
      by_cases hopts : (c.options.filter fun o => check_conditions p o.conditions) = []
      · by_cases hdecl : c.options = []
        · simp [gaaStep, hc, hopts, hdecl]
        · simp [gaaStep, hc, hopts, hdecl, List.isEmpty_iff]
      · simp [gaaStep, hc, hopts, List.isEmpty_iff]
    · rw [List.filter_cons_of_neg (by simpa using hc)]
      simp [gaaStep, hc]

/-- Drop leading whitespace from a character list (one side of
Python's `str.strip()`). -/
def dropWs : List Char → List Char
  | [] => []
  | c :: cs => if c.isWhitespace then dropWs cs else c :: cs

/-- Python `str.strip()`: remove leading and trailing whitespace. -/
def pyStrip (s : String) : List Char :=
  (dropWs (dropWs s.toList).reverse).reverse

/-- Python `str.isdigit()` on a (stripped) selection string, restricted to
ASCII digits: non-empty and all characters are digits. -/
def pyIsDigit (t : List Char) : Bool :=
  !t.isEmpty && t.all Char.isDigit

/-- Decimal value of a digit string, as Python `int(...)` computes it. -/
def digitsToNat (t : List Char) : Nat :=
  t.foldl (fun a c => a * 10 + (c.toNat - 48)) 0

/-- The menu-selection validation of `game.py`
(`choice.isdigit() and 1 <= int(choice) <= n` after `.strip()`):
returns the selected 1-based index when valid, `none` otherwise. -/
def parseChoice (s : String) (n : Nat) : Option Nat :=
  let t := pyStrip s
  if pyIsDigit t ∧ 1 ≤ digitsToNat t ∧ digitsToNat t ≤ n then some (digitsToNat t)
  else none

/-- Placeholder category; never reached because every index handed to
`List.getD` below is validated against the list length first. -/
def emptyCat : Category := ⟨"", "", [], []⟩

/-- Placeholder item for validated `List.getD` lookups into the inventory. -/
def emptyItem : Item := ⟨"", 0, 0⟩

/-- Outcome of reading the player's menu selection(s) for one round:
the input stream was exhausted, the selection was invalid (stream rest
returned), or a category key was resolved. -/
inductive SelRes where
  | noInput : SelRes
  | invalid : List String → SelRes
  | selected : String → List String → SelRes
deriving DecidableEq, Repr

/-- Lines 228–247 of `game.py`: compute the available actions, read and
validate the main selection, and when the chosen category has sub-options
read and validate the sub-selection too (the sub-option only names the
move; the resolved key is the category's). -/
def selectKey (catalog : List Category) (p : Player) : List String → SelRes
  | [] => SelRes.noInput
  | s :: rest =>
    let available := get_available_actions catalog p
    match parseChoice s available.length with
    | none => SelRes.invalid rest
    | some i =>
      let cat := available.getD (i - 1) emptyCat
      if cat.options.isEmpty then SelRes.selected cat.key rest
      else
        match rest with
        | [] => SelRes.noInput
        | s2 :: rest2 =>
          match parseChoice s2 cat.options.length with
          | none => SelRes.invalid rest2
          | some _ => SelRes.selected cat.key rest2

/-- Result of resolving the player's action by category key (lines
249–270): unrecognized key (loop `continue`s), escape (loop `break`s), or
an applied effect with the updated pair of combatants. -/
inductive PRes where
  | invalid : PRes
  | escaped : PRes
  | acted : Player → Enemy → PRes
deriving DecidableEq, Repr

/-- The player-action dispatch of `turn_based_combat`, clause for clause:
attack deals `max(player.attack - enemy.defense, 0)` to the enemy's hp,
defend adds 5 to the player's defense, skill and item have no numeric
effect, escape breaks out, anything else is invalid. -/
def playerPhase (key : String) (p : Player) (e : Enemy) : PRes :=
  if key = "attack" then
    PRes.acted p { e with hp := e.hp - max (p.attack - e.defense) 0 }
  else if key = "defend" then
    PRes.acted { p with defense := p.defense + 5 } e
  else if key = "skill" then
    PRes.acted p e
  else if key = "item" then
    PRes.acted p e
  else if key = "escape" then
    PRes.escaped
  else
    PRes.invalid

/-- The list `random.choice` draws from on the enemy turn
(line 277 of `game.py`): three attack tokens, one defense token. -/
def enemyTokens : List String := ["attack", "attack", "attack", "defense"]

/-- The enemy turn (lines 277–288): the uniform draw over the four tokens
is exposed as a `Fin 4` index; attack deals
`max(enemy.attack - player.defense, 0)` to the player's hp, defense adds 3
to the enemy's defense. -/
def enemyPhase (d : Fin 4) (p : Player) (e : Enemy) : Player × Enemy :=
  if enemyTokens.getD d.val "" = "attack" then
    ({ p with hp := p.hp - max (e.attack - p.defense) 0 }, e)
  else
    (p, { e with defense := e.defense + 3 })

/-- Events observable from the persistence gateway during a stretch of the
game: `round` marks a resolved player action inside combat, `save` records
the player state passed to `save_game`. -/
inductive CEvent where
  | round : CEvent
  | save : Player → CEvent
deriving DecidableEq, Repr

/-- `turn_based_combat(player, enemy)` of `game.py` (lines 226–295), with
the interactive inputs, the enemy's random draws and the loop fuel made
explicit.  Returns `none` when the loop did not terminate within the given
fuel or the modelled input/draw streams were exhausted, and otherwise the
final `(player, enemy)` pair, paired in either case with the trace of
round/save events.  On every exit from the loop the player's defense is
set back to 5 and the player is saved (lines 294–295). -/
def combatLoop (catalog : List Category) :
    Nat → Player → Enemy → List String → (Nat → Fin 4) →
      Option (Player × Enemy) × List CEvent
  | 0, _, _, _, _ => (none, [])
  | Nat.succ fuel, p, e, inputs, draws =>
    if 0 < p.hp ∧ 0 < e.hp then
      match selectKey catalog p inputs with
      | SelRes.noInput => (none, [])
      | SelRes.invalid rest => combatLoop catalog fuel p e rest draws
      | SelRes.selected key rest =>
        match playerPhase key p e with
        | PRes.invalid => combatLoop catalog fuel p e rest draws
        | PRes.escaped =>
          (some ({ p with defense := 5 }, e),
            [CEvent.round, CEvent.save { p with defense := 5 }])
        | PRes.acted p1 e1 =>
          if e1.hp ≤ 0 then
            (some ({ p1 with defense := 5 }, e1),
              [CEvent.round, CEvent.save { p1 with defense := 5 }])
          else
            match enemyPhase (draws 0) p1 e1 with
            | (p2, e2) =>
              if p2.hp ≤ 0 then
                (some ({ p2 with defense := 5 }, e2),
                  [CEvent.round, CEvent.save { p2 with defense := 5 }])
              else
                match combatLoop catalog fuel p2 e2 rest (fun n => draws (n + 1)) with
                | (r, evs) => (r, CEvent.round :: evs)
    else
      (some ({ p with defense := 5 }, e), [CEvent.save { p with defense := 5 }])

/-- Claim C1: resolving an `attack` action deals exactly
`max(player.attack - enemy.defense, 0)` damage to the enemy's hp — with
`player.attack = base_attack + weapon bonus` and the damage clamped at 0 —
and changes no other field of either combatant; in particular effective
attack 15 against defense 5 deals 10, and against defense 20 deals 0. -/
theorem claim_C1 :
    (∀ (p : Player) (e : Enemy),
      playerPhase "attack" p e =
        PRes.acted p { e with hp := e.hp - max (p.attack - e.defense) 0 }) ∧
    (∀ p : Player, p.attack =
      p.base_attack + (match p.weapon with | some w => w.attack_bonus | none => 0)) ∧
    (∀ (p : Player) (e : Enemy), 0 ≤ max (p.attack - e.defense) 0) ∧
    (∀ (p : Player) (e : Enemy), p.attack = 15 → e.defense = 5 →
      playerPhase "attack" p e = PRes.acted p { e with hp := e.hp - 10 }) ∧
    (∀ (p : Player) (e : Enemy), p.attack = 15 → e.defense = 20 →
      playerPhase "attack" p e = PRes.acted p e) := by
  refine ⟨fun p e => rfl, fun p => rfl, fun p e => le_max_right _ _, ?_, ?_⟩
  · intro p e ha hd
    simp only [playerPhase, if_pos rfl, ha, hd]
    norm_num
  · intro p e ha hd
    have hmax : max (p.attack - e.defense) 0 = 0 := by rw [ha, hd]; norm_num
    simp only [playerPhase, hmax, sub_zero]
    rfl

/-- Witness for C1's conditional conjuncts: a player with effective attack
15 (base 10, weapon bonus 5) against defense 5 leaves a 30-hp enemy at 20;
against defense 20 the enemy is untouched. -/
theorem claim_C1_witness :
    playerPhase "attack" ⟨"A", 100, 10, 5, [⟨"sword", 5, 0⟩], some ⟨"sword", 5, 0⟩, []⟩
        ⟨"E", 30, 4, 5, ""⟩ =
      PRes.acted ⟨"A", 100, 10, 5, [⟨"sword", 5, 0⟩], some ⟨"sword", 5, 0⟩, []⟩
        ⟨"E", 20, 4, 5, ""⟩ ∧
    playerPhase "attack" ⟨"A", 100, 10, 5, [⟨"sword", 5, 0⟩], some ⟨"sword", 5, 0⟩, []⟩
        ⟨"E", 30, 4, 20, ""⟩ =
      PRes.acted ⟨"A", 100, 10, 5, [⟨"sword", 5, 0⟩], some ⟨"sword", 5, 0⟩, []⟩
        ⟨"E", 30, 4, 20, ""⟩ := by
  constructor
  · have h := claim_C1.2.2.2.1
      ⟨"A", 100, 10, 5, [⟨"sword", 5, 0⟩], some ⟨"sword", 5, 0⟩, []⟩
      ⟨"E", 30, 4, 5, ""⟩ (by decide) (by decide)
    simpa using h
  · exact claim_C1.2.2.2.2
      ⟨"A", 100, 10, 5, [⟨"sword", 5, 0⟩], some ⟨"sword", 5, 0⟩, []⟩
      ⟨"E", 30, 4, 20, ""⟩ (by decide) (by decide)

lemma selectKey_invalid_main (catalog : List Category) (p : Player) (s : String)
    (rest : List String)
    (hbad : parseChoice s (get_available_actions catalog p).length = none) :
    selectKey catalog p (s :: rest) = SelRes.invalid rest := by
  simp [selectKey, hbad]

lemma selectKey_invalid_sub (catalog : List Category) (p : Player) (s1 s2 : String)
    (rest : List String) (i : Nat)
    (h1 : parseChoice s1 (get_available_actions catalog p).length = some i)
    (hne : ((get_available_actions catalog p).getD (i - 1) emptyCat).options ≠ [])
    (h2 : parseChoice s2
        ((get_available_actions catalog p).getD (i - 1) emptyCat).options.length = none) :
    selectKey catalog p (s1 :: s2 :: rest) = SelRes.invalid rest := by
  rw [List.getD_eq_getElem?_getD] at h2
  simp only [selectKey, h1]
  rw [if_neg (by simpa [List.isEmpty_iff] using hne)]
  simp [h2]

lemma combatLoop_invalid_step (catalog : List Category) (fuel : Nat) (p : Player)
    (e : Enemy) (inputs rest : List String) (draws : Nat → Fin 4)
    (hp : 0 < p.hp) (he : 0 < e.hp)
    (hsel : selectKey catalog p inputs = SelRes.invalid rest) :
    combatLoop catalog (fuel + 1) p e inputs draws =
      combatLoop catalog fuel p e rest draws := by
  rw [combatLoop, if_pos ⟨hp, he⟩, hsel]

lemma combatLoop_unrecognized_step (catalog : List Category) (fuel : Nat) (p : Player)
    (e : Enemy) (inputs rest : List String) (key : String) (draws : Nat → Fin 4)
    (hp : 0 < p.hp) (he : 0 < e.hp)
    (hsel : selectKey catalog p inputs = SelRes.selected key rest)
    (hph : playerPhase key p e = PRes.invalid) :
    combatLoop catalog (fuel + 1) p e inputs draws =
      combatLoop catalog fuel p e rest draws := by
  rw [combatLoop, if_pos ⟨hp, he⟩, hsel]
  simp only [hph]

lemma combatLoop_terminal_shape (catalog : List Category) :
    ∀ (fuel : Nat) (p : Player) (e : Enemy) (inputs : List String)
      (draws : Nat → Fin 4) (p1 : Player) (e1 : Enemy) (evs : List CEvent),
      combatLoop catalog fuel p e inputs draws = (some (p1, e1), evs) →
      p1.defense = 5 ∧ ∃ k, evs = List.replicate k CEvent.round ++ [CEvent.save p1] := by
  intro fuel
  induction fuel with
  | zero =>
    intro p e inputs draws p1 e1 evs h
    rw [combatLoop] at h
    simp at h
  | succ fuel ih =>
    intro p e inputs draws p1 e1 evs h
    rw [combatLoop] at h
    by_cases hc : 0 < p.hp ∧ 0 < e.hp
    · rw [if_pos hc] at h
      cases hsel : selectKey catalog p inputs with
      | noInput => rw [hsel] at h; simp at h
      | invalid rest =>
        rw [hsel] at h
        exact ih p e rest draws p1 e1 evs h
      | selected key rest =>
        rw [hsel] at h
        cases hph : playerPhase key p e with
        | invalid =>
          simp only [hph] at h
          exact ih p e rest draws p1 e1 evs h
        | escaped =>
          simp only [hph, Prod.mk.injEq, Option.some.injEq] at h
          obtain ⟨⟨hp1, -⟩, hevs⟩ := h
          subst hp1
          exact ⟨rfl, 1, by simpa using hevs.symm⟩
        | acted p2 e2 =>
          simp only [hph] at h
          by_cases hed : e2.hp ≤ 0
          · rw [if_pos hed] at h
            simp only [Prod.mk.injEq, Option.some.injEq] at h
            obtain ⟨⟨hp1, -⟩, hevs⟩ := h
            subst hp1
            exact ⟨rfl, 1, by simpa using hevs.symm⟩
          · rw [if_neg hed] at h
            rcases hep : enemyPhase (draws 0) p2 e2 with ⟨p3, e3⟩
            simp only [hep] at h
            by_cases hpd : p3.hp ≤ 0
            · rw [if_pos hpd] at h
              simp only [Prod.mk.injEq, Option.some.injEq] at h
              obtain ⟨⟨hp1, -⟩, hevs⟩ := h
              subst hp1
              exact ⟨rfl, 1, by simpa using hevs.symm⟩
            · rw [if_neg hpd] at h
              rcases hr : combatLoop catalog fuel p3 e3 rest (fun n => draws (n + 1))
                with ⟨r, evs2⟩
              simp only [hr, Prod.mk.injEq] at h
              obtain ⟨hr1, hevs⟩ := h
              subst hr1
              obtain ⟨hdef, k, hk⟩ := ih p3 e3 rest (fun n => draws (n + 1)) p1 e1 evs2 hr
              refine ⟨hdef, k + 1, ?_⟩
              rw [← hevs, hk, List.replicate_succ, List.cons_append]
    · rw [if_neg hc] at h
      simp only [Prod.mk.injEq, Option.some.injEq] at h
      obtain ⟨⟨hp1, -⟩, hevs⟩ := h
      subst hp1
      exact ⟨rfl, 0, by simpa using hevs.symm⟩

/-- Demo action catalog (conditionless attack / defend / escape leaf
categories) used to exercise the combat loop on concrete runs. -/
def demoCatalog : List Category :=
  [⟨"attack", "Attack", [], []⟩, ⟨"defend", "Defend", [], []⟩, ⟨"escape", "Run", [], []⟩]

/-- Demo player used in concrete runs. -/
def demoP : Player := ⟨"A", 100, 10, 5, [], none, []⟩

/-- Demo enemy used in concrete runs. -/
def demoE : Enemy := ⟨"E", 12, 4, 0, ""⟩

/-- Claim C4: the enemy draw is over exactly four tokens — three `attack`,
one `defense`; an attack token costs the player
`max(enemy.attack - player.defense, 0)` hp, a defense token adds 3 to the
enemy's defense; and no enemy turn happens in a round where the player
escaped or where the player's action left the enemy at hp ≤ 0. -/
theorem claim_C4 :
    (enemyTokens.length = 4 ∧ enemyTokens.count "attack" = 3 ∧
      enemyTokens.count "defense" = 1) ∧
    (∀ (d : Fin 4) (p : Player) (e : Enemy), d.val < 3 →
      enemyPhase d p e = ({ p with hp := p.hp - max (e.attack - p.defense) 0 }, e)) ∧
    (∀ (d : Fin 4) (p : Player) (e : Enemy), d.val = 3 →
      enemyPhase d p e = (p, { e with defense := e.defense + 3 })) ∧
    (∀ (catalog : List Category) (fuel : Nat) (p : Player) (e : Enemy)
        (inputs rest : List String) (draws : Nat → Fin 4),
      0 < p.hp → 0 < e.hp →
      selectKey catalog p inputs = SelRes.selected "escape" rest →
      combatLoop catalog (fuel + 1) p e inputs draws =
        (some ({ p with defense := 5 }, e),
          [CEvent.round, CEvent.save { p with defense := 5 }])) ∧
    (∀ (catalog : List Category) (fuel : Nat) (p : Player) (e : Enemy)
        (inputs rest : List String) (key : String) (p1 : Player) (e1 : Enemy)
        (draws : Nat → Fin 4),
      0 < p.hp → 0 < e.hp →
      selectKey catalog p inputs = SelRes.selected key rest →
      playerPhase key p e = PRes.acted p1 e1 → e1.hp ≤ 0 →
      combatLoop catalog (fuel + 1) p e inputs draws =
        (some ({ p1 with defense := 5 }, e1),
          [CEvent.round, CEvent.save { p1 with defense := 5 }])) := by
  refine ⟨⟨rfl, by decide, by decide⟩, ?_, ?_, ?_, ?_⟩
  · intro d p e hd3
    have ht : enemyTokens.getD d.val "" = "attack" := by
      have hv : d.val = 0 ∨ d.val = 1 ∨ d.val = 2 := by omega
      rcases hv with h | h | h <;> rw [h] <;> rfl
    unfold enemyPhase
    rw [if_pos ht]
  · intro d p e hd3
    have ht : enemyTokens.getD d.val "" = "defense" := by rw [hd3]; rfl
    unfold enemyPhase
    rw [if_neg (by rw [ht]; decide)]
  · intro catalog fuel p e inputs rest draws hp he hsel
    rw [combatLoop, if_pos ⟨hp, he⟩, hsel]
    rfl
  · intro catalog fuel p e inputs rest key p1 e1 draws hp he hsel hph hle
    rw [combatLoop, if_pos ⟨hp, he⟩, hsel]
    simp only [hph]
    rw [if_pos hle]

/-- Witness for C4: on concrete inputs, an attack-token enemy turn costs
the player `max(7 - 5, 0) = 2` hp, a defense-token turn adds 3 enemy
defense, an escape round terminates without touching the enemy, and a
killing blow terminates without an enemy turn. -/
theorem claim_C4_witness :
    enemyPhase 0 demoP ⟨"E", 12, 7, 0, ""⟩ =
      ({ demoP with hp := demoP.hp - max ((7 : Int) - 5) 0 }, ⟨"E", 12, 7, 0, ""⟩) ∧
    enemyPhase 3 demoP demoE = (demoP, { demoE with defense := demoE.defense + 3 }) ∧
    combatLoop demoCatalog 3 demoP demoE ["3"] (fun _ => 3) =
      (some ({ demoP with defense := 5 }, demoE),
        [CEvent.round, CEvent.save { demoP with defense := 5 }]) ∧
    combatLoop demoCatalog 3 demoP ⟨"E", 8, 4, 0, ""⟩ ["1"] (fun _ => 3) =
      (some ({ demoP with defense := 5 }, ⟨"E", -2, 4, 0, ""⟩),
        [CEvent.round, CEvent.save { demoP with defense := 5 }]) := by
  refine ⟨?_, ?_, ?_, ?_⟩
  · have h := claim_C4.2.1 0 demoP ⟨"E", 12, 7, 0, ""⟩ (by decide)
    simpa [demoP] using h
  · exact claim_C4.2.2.1 3 demoP demoE rfl
  · exact claim_C4.2.2.2.1 demoCatalog 2 demoP demoE ["3"] [] (fun _ => 3)
      (by decide) (by decide) (by decide)
  · exact claim_C4.2.2.2.2 demoCatalog 2 demoP ⟨"E", 8, 4, 0, ""⟩ ["1"] []
      "attack" demoP ⟨"E", -2, 4, 0, ""⟩ (fun _ => 3)
      (by decide) (by decide) (by decide) (by decide) (by decide)

/-- Claim C5: each `defend` action adds exactly 5 to the player's defense
(and changes nothing else, so repeated uses stack additively), and on
every termination of the combat loop — enemy defeated, player defeated,
or escape — the returned player's defense is exactly 5. -/
theorem claim_C5 :
    (∀ (p : Player) (e : Enemy),
      playerPhase "defend" p e = PRes.acted { p with defense := p.defense + 5 } e) ∧
    (∀ (catalog : List Category) (fuel : Nat) (p : Player) (e : Enemy)
        (inputs : List String) (draws : Nat → Fin 4) (p1 : Player) (e1 : Enemy)
        (evs : List CEvent),
      combatLoop catalog fuel p e inputs draws = (some (p1, e1), evs) →
      p1.defense = 5) :=
  ⟨fun _ _ => rfl,
   fun catalog fuel p e inputs draws p1 e1 evs h =>
    (combatLoop_terminal_shape catalog fuel p e inputs draws p1 e1 evs h).1⟩

/-- Witness for C5: a concrete four-round run (defend, then three attacks)
terminates with the accumulated defense of 10 reset to exactly 5. -/
theorem claim_C5_witness :
    (Player.mk "A" 100 10 5 [] none []).defense = 5 :=
  claim_C5.2 demoCatalog 6 demoP demoE ["2", "1", "1", "1"] (fun _ => 3)
    (Player.mk "A" 100 10 5 [] none []) (Enemy.mk "E" 0 4 9 "")
    [CEvent.round, CEvent.round, CEvent.round, CEvent.round,
      CEvent.save (Player.mk "A" 100 10 5 [] none [])]
    (by decide)

lemma combatLoop_invalid_list (catalog : List Category) (p : Player) (e : Enemy)
    (draws : Nat → Fin 4) (hp : 0 < p.hp) (he : 0 < e.hp) :
    ∀ (bad : List String) (fuel : Nat) (rest : List String),
      (∀ s ∈ bad, parseChoice s (get_available_actions catalog p).length = none) →
      combatLoop catalog (fuel + bad.length) p e (bad ++ rest) draws =
        combatLoop catalog fuel p e rest draws := by
  intro bad
  induction bad with
  | nil => intro fuel rest _; rfl
  | cons s bs ih =>
    intro fuel rest hall
    have h1 : parseChoice s (get_available_actions catalog p).length = none :=
      hall s (by simp)
    have hlen : fuel + (s :: bs).length = (fuel + bs.length) + 1 := rfl
    rw [hlen, List.cons_append,
      combatLoop_invalid_step catalog (fuel + bs.length) p e _ (bs ++ rest) draws hp he
        (selectKey_invalid_main catalog p s (bs ++ rest) h1)]
    exact ih fuel rest (fun x hx => hall x (by simp [hx]))

/-- Claim C6: an invalid main selection, an invalid sub-option selection,
or a validly selected category whose key is none of
attack/defend/skill/item/escape, each makes the loop iteration a no-op:
the player and enemy are passed unchanged to the next iteration, no enemy
turn runs and no event is emitted, and the same decision point is
re-offered; arbitrarily many consecutive invalid inputs behave the same
way (no retry limit). -/
theorem claim_C6 :
    (∀ (catalog : List Category) (fuel : Nat) (p : Player) (e : Enemy)
        (s : String) (rest : List String) (draws : Nat → Fin 4),
      0 < p.hp → 0 < e.hp →
      parseChoice s (get_available_actions catalog p).length = none →
      combatLoop catalog (fuel + 1) p e (s :: rest) draws =
        combatLoop catalog fuel p e rest draws) ∧
    (∀ (catalog : List Category) (fuel : Nat) (p : Player) (e : Enemy)
        (s1 s2 : String) (rest : List String) (draws : Nat → Fin 4) (i : Nat),
      0 < p.hp → 0 < e.hp →
      parseChoice s1 (get_available_actions catalog p).length = some i →
      ((get_available_actions catalog p).getD (i - 1) emptyCat).options ≠ [] →
      parseChoice s2
          ((get_available_actions catalog p).getD (i - 1) emptyCat).options.length = none →
      combatLoop catalog (fuel + 1) p e (s1 :: s2 :: rest) draws =
        combatLoop catalog fuel p e rest draws) ∧
    (∀ (catalog : List Category) (fuel : Nat) (p : Player) (e : Enemy)
        (inputs rest : List String) (key : String) (draws : Nat → Fin 4),
      0 < p.hp → 0 < e.hp →
      selectKey catalog p inputs = SelRes.selected key rest →
      key ≠ "attack" → key ≠ "defend" → key ≠ "skill" → key ≠ "item" →
      key ≠ "escape" →
      combatLoop catalog (fuel + 1) p e inputs draws =
        combatLoop catalog fuel p e rest draws) ∧
    (∀ (catalog : List Category) (p : Player) (e : Enemy) (draws : Nat → Fin 4)
        (bad rest : List String) (fuel : Nat),
      0 < p.hp → 0 < e.hp →
      (∀ s ∈ bad, parseChoice s (get_available_actions catalog p).length = none) →
      combatLoop catalog (fuel + bad.length) p e (bad ++ rest) draws =
        combatLoop catalog fuel p e rest draws) := by
  refine ⟨?_, ?_, ?_, ?_⟩
  · intro catalog fuel p e s rest draws hp he hbad
    exact combatLoop_invalid_step catalog fuel p e (s :: rest) rest draws hp he
      (selectKey_invalid_main catalog p s rest hbad)
  · intro catalog fuel p e s1 s2 rest draws i hp he h1 hne h2
    exact combatLoop_invalid_step catalog fuel p e (s1 :: s2 :: rest) rest draws hp he
      (selectKey_invalid_sub catalog p s1 s2 rest i h1 hne h2)
  · intro catalog fuel p e inputs rest key draws hp he hsel k1 k2 k3 k4 k5
    refine combatLoop_unrecognized_step catalog fuel p e inputs rest key draws hp he hsel ?_
    simp [playerPhase, k1, k2, k3, k4, k5]
  · intro catalog p e draws bad rest fuel hp he hall
    exact combatLoop_invalid_list catalog p e draws hp he bad fuel rest hall

/-- Witness for C6: with the demo catalog, the junk input "x", an invalid
sub-free second selection "0", an unrecognized key, and the junk pair
["x", "9"] all leave the concrete combat state untouched and merely
re-enter the loop. -/
theorem claim_C6_witness :
    combatLoop demoCatalog 2 demoP demoE ["x", "3"] (fun _ => 3) =
      combatLoop demoCatalog 1 demoP demoE ["3"] (fun _ => 3) ∧
    combatLoop demoCatalog 3 demoP demoE ["x", "9", "3"] (fun _ => 3) =
      combatLoop demoCatalog 1 demoP demoE ["3"] (fun _ => 3) ∧
    combatLoop [⟨"dance", "Dance", [], []⟩] 2 demoP demoE ["1", "z"] (fun _ => 3) =
      combatLoop [⟨"dance", "Dance", [], []⟩] 1 demoP demoE ["z"] (fun _ => 3) := by
  refine ⟨?_, ?_, ?_⟩
  · exact claim_C6.1 demoCatalog 1 demoP demoE "x" ["3"] (fun _ => 3)
      (by decide) (by decide) (by decide)
  · exact claim_C6.2.2.2 demoCatalog demoP demoE (fun _ => 3) ["x", "9"] ["3"] 1
      (by decide) (by decide) (by decide)
  · exact claim_C6.2.2.1 [⟨"dance", "Dance", [], []⟩] 1 demoP demoE ["1", "z"] ["z"]
      "dance" (fun _ => 3) (by decide) (by decide) (by decide)
      (by decide) (by decide) (by decide) (by decide) (by decide)

/-- Serialized item record (an inventory entry in the save document);
`none` fields model missing dict keys. `name` is read with `i["name"]`
in the source, so its absence is a hard failure, while the bonuses
default to 0. -/
structure ItemRec where
  name : Option String
  attack_bonus : Option Int
  defense_bonus : Option Int
deriving DecidableEq, Repr

/-- Serialized stats record; each field defaults when missing
(`hp` 100, `base_attack` 10, `defense` 5). -/
structure StatsRec where
  hp : Option Int
  base_attack : Option Int
  defense : Option Int
deriving DecidableEq, Repr

/-- Serialized equipment record: the equipped weapon's name, or `none`
for a missing key or a `null` value. -/
structure EquipRec where
  weapon : Option String
deriving DecidableEq, Repr

/-- The save/template document shape consumed by `Player.__init__`
(`name`, `stats`, `inventory`, `equipment`, `missions`); `none` models a
missing top-level key. -/
structure PState where
  name : Option String
  stats : Option StatsRec
  inventory : Option (List ItemRec)
  equipment : Option EquipRec
  missions : Option (List (String × PyVal))
deriving DecidableEq, Repr

/-- Construction of one `Item` from an inventory record
(`Item(i["name"], i.get("attack_bonus", 0), i.get("defense_bonus", 0))`):
a missing `name` key raises (`none`), the bonuses default to 0. -/
def mkItem (r : ItemRec) : Option Item :=
  match r.name with
  | none => none
  | some n => some ⟨n, r.attack_bonus.getD 0, r.defense_bonus.getD 0⟩

/-- The inventory list comprehension of `Player.__init__`: converts each
record in order, failing if any record fails. -/
def mkInventory : List ItemRec → Option (List Item)
  | [] => some []
  | r :: rs =>
    match mkItem r, mkInventory rs with
    | some it, some its => some (it :: its)
    | _, _ => none

/-- `Player.__init__(state)` of `game.py`.  `gen` stands for the value
`generate_code_name()` would produce, used when the stored name is missing
or empty (`state.get("name") or generate_code_name()`).  The equipped
weapon is re-resolved by name lookup over the reconstructed inventory
(first match), `None` when the name is absent or not found. -/
def mkPlayer (gen : String) (state : PState) : Option Player :=
  let name := match state.name with
    | some s => if s = "" then gen else s
    | none => gen
  let stats := state.stats.getD ⟨none, none, none⟩
  match mkInventory (state.inventory.getD []) with
  | none => none
  | some inv =>
    let weapon_name := (state.equipment.getD ⟨none⟩).weapon
    let weapon := match weapon_name with
      | none => none
      | some n => inv.find? fun it => it.name == n
    some ⟨name, stats.hp.getD 100, stats.base_attack.getD 10, stats.defense.getD 5,
      inv, weapon, state.missions.getD []⟩

/-- `Player.to_dict(self)` of `game.py`: every key is written, the weapon
slot holds the equipped weapon's name or `null`. -/
def Player.to_dict (p : Player) : PState :=
  { name := some p.name
    stats := some ⟨some p.hp, some p.base_attack, some p.defense⟩
    inventory := some (p.inventory.map fun it =>
      ⟨some it.name, some it.attack_bonus, some it.defense_bonus⟩)
    equipment := some ⟨p.weapon.map Item.name⟩
    missions := some p.missions }

/-- `_load_json` of `game.py`, over an abstract file system mapping paths
to (already parsed) documents: a present file is returned, a missing file
raises `FileNotFoundError` with the documented message. -/
def load_json (fs : String → Option PState) (path : String) : Except String PState :=
  match fs path with
  | some doc => Except.ok doc
  | none => Except.error ("Required file not found: " ++ path)

/-- `equip_menu(player)` of `game.py` with the single read input made
explicit: a valid index equips that inventory item and saves; anything
else cancels with no state change and no save.  The second component is
the trace of persistence events. -/
def equip_menu (p : Player) (choice : String) : Player × List CEvent :=
  match parseChoice choice p.inventory.length with
  | some i =>
    let item := p.inventory.getD (i - 1) emptyItem
    let p1 := { p with weapon := some item }
    (p1, [CEvent.save p1])
  | none => (p, [])

/-- Python `missions.get("completed", 0) + 1`: integer and boolean values
support `+ 1`; any other stored value raises `TypeError` (`none`). -/
def pyAdd1 : PyVal → Option PyVal
  | PyVal.pInt n => some (PyVal.pInt (n + 1))
  | PyVal.pBool b => some (PyVal.pInt ((if b then 1 else 0) + 1))
  | _ => none

/-- `missions["completed"] = missions.get("completed", 0) + 1`
(line 430 of `game.py`). -/
def bumpCompleted (ms : List (String × PyVal)) : Option (List (String × PyVal)) :=
  match pyAdd1 (pyGetD ms "completed" (PyVal.pInt 0)) with
  | some v => some (pySet ms "completed" v)
  | none => none

/-- One iteration of the mission-office loop of `main` (lines 416–435 of
`game.py`): on acceptance the combat runs, then a defeated player is
saved once (line 435) while a victorious player gets the completed
counter bumped and is saved twice (lines 431 and 435); on decline the
player is saved once (line 435).  Returns `none` when the combat did not
terminate in the model or the counter bump raises. -/
def missionIteration (catalog : List Category) (fuel : Nat) (p : Player)
    (enemy : Enemy) (accept : Bool) (inputs : List String) (draws : Nat → Fin 4) :
    Option (Player × List CEvent) :=
  if accept then
    match combatLoop catalog fuel p enemy inputs draws with
    | (none, _) => none
    | (some (p1, _), evs) =>
      if p1.hp ≤ 0 then some (p1, evs ++ [CEvent.save p1])
      else
        match bumpCompleted p1.missions with
        | none => none
        | some ms =>
          let p2 := { p1 with missions := ms }
          some (p2, evs ++ [CEvent.save p2, CEvent.save p2])
  else some (p, [CEvent.save p])

/-- Whether a trace event is a save. -/
def isSave : CEvent → Bool
  | CEvent.save _ => true
  | CEvent.round => false

/-- Number of save events in a trace. -/
def countSaves (evs : List CEvent) : Nat :=
  (evs.filter isSave).length

/-- Number of resolved combat rounds in a trace. -/
def countRounds (evs : List CEvent) : Nat :=
  (evs.filter fun ev => !isSave ev).length

/-- Counterexample to C7 as stated: a concrete encounter that resolves two
combat rounds (two attacks, the second killing the enemy) produces exactly
one save event — the single end-of-encounter save — so the save record is
NOT written after each combat round resolution. -/
theorem claim_C7_counterexample :
    countRounds (combatLoop demoCatalog 5 demoP demoE ["1", "1"] (fun _ => 3)).2 = 2 ∧
    countSaves (combatLoop demoCatalog 5 demoP demoE ["1", "1"] (fun _ => 3)).2 = 1 ∧
    ¬ (countRounds (combatLoop demoCatalog 5 demoP demoE ["1", "1"] (fun _ => 3)).2 ≤
        countSaves (combatLoop demoCatalog 5 demoP demoE ["1", "1"] (fun _ => 3)).2) :=
  ⟨by decide, by decide, by decide⟩

lemma filter_isSave_replicate_round (k : Nat) :
    (List.replicate k CEvent.round).filter isSave = [] := by
  induction k with
  | zero => rfl
  | succ k ih => simp [List.replicate_succ, isSave, ih]

/-- Amended C7: the save record is written after a successful equip in
`equip_menu` (and not after a cancelled one), exactly once per combat
encounter — at its termination, after the defense reset, recording the
final player state (not after each round) — and at the end of every
mission-office iteration, last recording the up-to-date player. -/
theorem claim_C7_amended :
    (∀ (p : Player) (s : String) (i : Nat),
      parseChoice s p.inventory.length = some i →
      (equip_menu p s).2 = [CEvent.save (equip_menu p s).1] ∧
      (equip_menu p s).1.weapon = some (p.inventory.getD (i - 1) emptyItem)) ∧
    (∀ (p : Player) (s : String),
      parseChoice s p.inventory.length = none → equip_menu p s = (p, [])) ∧
    (∀ (catalog : List Category) (fuel : Nat) (p : Player) (e : Enemy)
        (inputs : List String) (draws : Nat → Fin 4) (p1 : Player) (e1 : Enemy)
        (evs : List CEvent),
      combatLoop catalog fuel p e inputs draws = (some (p1, e1), evs) →
      countSaves evs = 1 ∧ evs.getLast? = some (CEvent.save p1)) ∧
    (∀ (catalog : List Category) (fuel : Nat) (p : Player) (enemy : Enemy)
        (accept : Bool) (inputs : List String) (draws : Nat → Fin 4)
        (p2 : Player) (evs : List CEvent),
      missionIteration catalog fuel p enemy accept inputs draws = some (p2, evs) →
      evs.getLast? = some (CEvent.save p2)) := by
  refine ⟨?_, ?_, ?_, ?_⟩
  · intro p s i h
    unfold equip_menu
    rw [h]
    exact ⟨rfl, rfl⟩
  · intro p s h
    unfold equip_menu
    rw [h]
  · intro catalog fuel p e inputs draws p1 e1 evs h
    obtain ⟨-, k, hk⟩ :=
      combatLoop_terminal_shape catalog fuel p e inputs draws p1 e1 evs h
    subst hk
    constructor
    · simp [countSaves, filter_isSave_replicate_round, isSave]
    · exact List.getLast?_concat _
  · intro catalog fuel p enemy accept inputs draws p2 evs h
    unfold missionIteration at h
    by_cases hacc : accept
    · rw [if_pos hacc] at h
      rcases hc : combatLoop catalog fuel p enemy inputs draws with ⟨r, evs1⟩
      simp only [hc] at h
      cases r with
      | none => exact absurd h (by simp)
      | some pe =>
        obtain ⟨p1, e1⟩ := pe
        dsimp only at h
        by_cases hdead : p1.hp ≤ 0
        · rw [if_pos hdead] at h
          simp only [Option.some.injEq, Prod.mk.injEq] at h
          obtain ⟨hp2, hevs⟩ := h
          subst hp2
          rw [← hevs]
          exact List.getLast?_concat _
        · rw [if_neg hdead] at h
          rcases hb : bumpCompleted p1.missions with - | ms
          · simp only [hb] at h
            exact absurd h (by simp)
          · simp only [hb, Option.some.injEq, Prod.mk.injEq] at h
            obtain ⟨hp2, hevs⟩ := h
            subst hp2
            rw [← hevs]
            have hsplit :
                evs1 ++ [CEvent.save { p1 with missions := ms },
                    CEvent.save { p1 with missions := ms }] =
                  (evs1 ++ [CEvent.save { p1 with missions := ms }]) ++
                    [CEvent.save { p1 with missions := ms }] := by
              simp
            rw [hsplit]
            exact List.getLast?_concat _
    · rw [if_neg hacc] at h
      simp only [Option.some.injEq, Prod.mk.injEq] at h
      obtain ⟨hp2, hevs⟩ := h
      subst hp2
      rw [← hevs]
      rfl

/-- Witness for amended C7: equipping the single demo inventory item emits
exactly the save of the equipped player; a concrete terminated encounter
has one save, last, of the returned player; a concrete victorious mission
iteration ends with a save of the player whose completed counter is 1. -/
theorem claim_C7_amended_witness :
    (equip_menu ⟨"A", 100, 10, 5, [⟨"sword", 5, 0⟩], none, []⟩ "1").2 =
      [CEvent.save (equip_menu ⟨"A", 100, 10, 5, [⟨"sword", 5, 0⟩], none, []⟩ "1").1] ∧
    countSaves (combatLoop demoCatalog 5 demoP demoE ["1", "1"] (fun _ => 3)).2 = 1 ∧
    (missionIteration demoCatalog 5 demoP demoE true ["1", "1"] (fun _ => 3)).map
        (fun pe => pe.2.getLast?) =
      some (some (CEvent.save
        ⟨"A", 100, 10, 5, [], none, [("completed", PyVal.pInt 1)]⟩)) := by
  refine ⟨?_, ?_, ?_⟩
  · exact (claim_C7_amended.1 ⟨"A", 100, 10, 5, [⟨"sword", 5, 0⟩], none, []⟩ "1" 1
      (by decide)).1
  · exact (claim_C7_amended.2.2.1 demoCatalog 5 demoP demoE ["1", "1"] (fun _ => 3)
      (Player.mk "A" 100 10 5 [] none []) (Enemy.mk "E" (-5) 4 3 "")
      [CEvent.round, CEvent.round, CEvent.save (Player.mk "A" 100 10 5 [] none [])]
      (by decide)).1
  · have h := claim_C7_amended.2.2.2 demoCatalog 5 demoP demoE true ["1", "1"]
      (fun _ => 3) ⟨"A", 100, 10, 5, [], none, [("completed", PyVal.pInt 1)]⟩
      [CEvent.round, CEvent.round, CEvent.save (Player.mk "A" 100 10 5 [] none []),
        CEvent.save ⟨"A", 100, 10, 5, [], none, [("completed", PyVal.pInt 1)]⟩,
        CEvent.save ⟨"A", 100, 10, 5, [], none, [("completed", PyVal.pInt 1)]⟩]
      (by decide)
    rw [show missionIteration demoCatalog 5 demoP demoE true ["1", "1"] (fun _ => 3) =
      some (⟨"A", 100, 10, 5, [], none, [("completed", PyVal.pInt 1)]⟩,
        [CEvent.round, CEvent.round, CEvent.save (Player.mk "A" 100 10 5 [] none []),
          CEvent.save ⟨"A", 100, 10, 5, [], none, [("completed", PyVal.pInt 1)]⟩,
          CEvent.save ⟨"A", 100, 10, 5, [], none, [("completed", PyVal.pInt 1)]⟩])
      from by decide]
    exact congrArg some h

/-- Counterexample to C8 as stated: constructing a `Player` from a record
with every top-level key missing does NOT fail — it silently succeeds with
the defaulted player (generated name, hp 100, base attack 10, defense 5,
empty inventory, no weapon, empty missions). -/
theorem claim_C8_counterexample :
    mkPlayer "XY-01" ⟨none, none, none, none, none⟩ ≠ none ∧
    mkPlayer "XY-01" ⟨none, none, none, none, none⟩ =
      some ⟨"XY-01", 100, 10, 5, [], none, []⟩ :=
  ⟨by decide, by decide⟩

/-- Amended C8: a missing content file does fail loudly
(`FileNotFoundError` with the documented message) and a present one loads;
but a `Player` record with missing top-level keys does not fail — every
top-level key silently defaults (name generated, hp 100, base attack 10,
defense 5, empty inventory, no weapon, empty missions); only an inventory
item record without a `name` key makes construction raise. -/
theorem claim_C8_amended :
    (∀ (fs : String → Option PState) (path : String), fs path = none →
      load_json fs path = Except.error ("Required file not found: " ++ path)) ∧
    (∀ (fs : String → Option PState) (path : String) (doc : PState),
      fs path = some doc → load_json fs path = Except.ok doc) ∧
    (∀ gen : String, mkPlayer gen ⟨none, none, none, none, none⟩ =
      some ⟨gen, 100, 10, 5, [], none, []⟩) ∧
    (∀ (gen : String) (ab db : Option Int),
      mkPlayer gen ⟨none, none, some [⟨none, ab, db⟩], none, none⟩ = none) := by
  refine ⟨?_, ?_, ?_, ?_⟩
  · intro fs path h
    unfold load_json
    rw [h]
  · intro fs path doc h
    unfold load_json
    rw [h]
  · intro gen
    rfl
  · intro gen ab db
    rfl

/-- Witness for amended C8: a one-file system is missing `save.json`, so
loading it errors with the documented message, while `config.json` loads;
the empty record defaults; an inventory record without a name fails. -/
theorem claim_C8_amended_witness :
    load_json (fun path => if path = "config.json"
        then some ⟨none, none, none, none, none⟩ else none) "save.json" =
      Except.error "Required file not found: save.json" ∧
    load_json (fun path => if path = "config.json"
        then some ⟨none, none, none, none, none⟩ else none) "config.json" =
      Except.ok ⟨none, none, none, none, none⟩ ∧
    mkPlayer "XY-07" ⟨none, none, none, none, none⟩ =
      some ⟨"XY-07", 100, 10, 5, [], none, []⟩ ∧
    mkPlayer "XY-07" ⟨none, none, some [⟨none, some 3, none⟩], none, none⟩ = none :=
  ⟨claim_C8_amended.1 _ "save.json" (by decide),
   claim_C8_amended.2.1 _ "config.json" ⟨none, none, none, none, none⟩ (by decide),
   claim_C8_amended.2.2.1 "XY-07",
   claim_C8_amended.2.2.2 "XY-07" (some 3) none⟩

lemma mkInventory_to_dict (inv : List Item) :
    mkInventory (inv.map fun it =>
      (⟨some it.name, some it.attack_bonus, some it.defense_bonus⟩ : ItemRec)) =
      some inv := by
  induction inv with
  | nil => rfl
  | cons it its ih => simp [mkInventory, mkItem, ih]

lemma mkPlayer_to_dict (p : Player) (gen : String) (hname : p.name ≠ "") :
    mkPlayer gen p.to_dict =
      some ⟨p.name, p.hp, p.base_attack, p.defense, p.inventory,
        (match p.weapon.map Item.name with
         | none => none
         | some n => p.inventory.find? fun it => it.name == n), p.missions⟩ := by
  unfold mkPlayer Player.to_dict
  simp [mkInventory_to_dict, hname]

/-- Claim C9: the save/load round-trip — for every player with a non-empty
name whose equipped weapon (if any) has its name present in the inventory
(the documented representation invariant), reconstructing from `to_dict`
succeeds and preserves name, hp, base attack, defense, the inventory
sequence, the equipped weapon's name (or its absence), and the missions
mapping. -/
theorem claim_C9 (p : Player) (gen : String) (hname : p.name ≠ "")
    (hw : ∀ w, p.weapon = some w → ∃ it ∈ p.inventory, it.name = w.name) :
    ∃ q, mkPlayer gen p.to_dict = some q ∧
      q.name = p.name ∧ q.hp = p.hp ∧ q.base_attack = p.base_attack ∧
      q.defense = p.defense ∧ q.inventory = p.inventory ∧
      q.weapon.map Item.name = p.weapon.map Item.name ∧ q.missions = p.missions := by
  refine ⟨_, mkPlayer_to_dict p gen hname, rfl, rfl, rfl, rfl, rfl, ?_, rfl⟩
  cases hwp : p.weapon with
  | none => simp
  | some w =>
    obtain ⟨it, hit, hn⟩ := hw w hwp
    have hsome : (p.inventory.find? fun x => x.name == w.name).isSome := by
      rw [List.find?_isSome]
      exact ⟨it, hit, by simp [hn]⟩
    obtain ⟨it2, hit2⟩ := Option.isSome_iff_exists.mp hsome
    have hname2 : it2.name = w.name := by simpa using List.find?_some hit2
    simp [hit2, hname2]

/-- Witness for C9: a concrete armed player with a mission round-trips. -/
theorem claim_C9_witness :
    ∃ q, mkPlayer "G" (Player.to_dict ⟨"A", 90, 10, 4, [⟨"sword", 5, 0⟩],
        some ⟨"sword", 5, 0⟩, [("current", PyVal.pStr "m1")]⟩) = some q ∧
      q.name = (⟨"A", 90, 10, 4, [⟨"sword", 5, 0⟩], some ⟨"sword", 5, 0⟩,
        [("current", PyVal.pStr "m1")]⟩ : Player).name ∧
      q.hp = 90 ∧ q.base_attack = 10 ∧ q.defense = 4 ∧
      q.inventory = [⟨"sword", 5, 0⟩] ∧
      q.weapon.map Item.name = some "sword" ∧
      q.missions = [("current", PyVal.pStr "m1")] :=
  claim_C9 ⟨"A", 90, 10, 4, [⟨"sword", 5, 0⟩], some ⟨"sword", 5, 0⟩,
      [("current", PyVal.pStr "m1")]⟩ "G" (by decide)
    (by
      intro w hweq
      injection hweq with h
      subst h
      exact ⟨⟨"sword", 5, 0⟩, by simp, rfl⟩)
